import Mathlib

/-!
Verification development for the PubMed ingestion pipeline (`download.py`).

The shallow embedding below mirrors the source functions:
* `fetch_article_data` — retrying fetch of one PMID; the remote call plus
  normalization of one attempt is abstracted as an oracle
  `att : Nat → Except String Record` mapping the attempt index to either a
  normalized record or the raised error's message.  The Python function's
  observable effects are collected in a `FetchTrace`: the returned value
  (`result`, `None` modelled as `none`), the printed failure message
  (`report`, carrying the PMID and the last error, as on the
  `print(f"Failed to process {pmid}: ...")` line), the number of attempts
  consumed, and the list of `time.sleep` durations in order.
* `process_batch` — fetches each PMID of a batch and keeps only records
  passing the truthiness test `article_data and article_data["abstract"]
  and article_data["doi"]`.
* `process_all_ids` — chunks the input into batches of `BATCH_SIZE`,
  processes them, appends usable records to the dataset file, collects the
  ids of batches with empty results into `failed_ids`, then runs
  `generate_outputs` inside `try/except` and finally writes
  `failed_ids.txt` when `failed_ids` is non-empty.  The thread pool's
  `as_completed` order is nondeterministic; the embedding resolves it to
  submission order (all properties proved below are order-insensitive).
  The possibility that `generate_outputs` raises (its `except` branch) is
  injected through the `exportFail : Option String` parameter.
* `generate_outputs` — the classification/export stage working on the
  parsed dataset records; file naming (`prefix`) and the HTML conversion
  are presentation details not modelled.
-/

namespace BGI

/-- Python truthiness of an optional string field (`None` and `""` are falsy). -/
def truthyOpt : Option String → Bool
  | none => false
  | some s => s != ""

/-- The normalized article dict built by `fetch_article_data` on a successful
attempt (keys of the returned dict, in source order). -/
structure Record where
  pub_id : String
  doi : Option String
  pmc_id : Option String
  abstract : String
  title : String
  keyword : List String
  first_author_affiliation : Option String
  communicate_author_affiliation : Option String
  journal : Option String
  pub_date : Option String
deriving DecidableEq, Repr

/-- Retry budget of `fetch_article_data` (`retries=3` default). -/
def RETRIES : Nat := 3

/-- Worker batch size (`BATCH_SIZE = 1`). -/
def BATCH_SIZE : Nat := 1

/-- Observable behaviour of one `fetch_article_data` call: the returned value
(`None` ↦ `none`), the printed failure report (PMID and last error message),
the number of loop iterations performed, and the sleep durations in order. -/
structure FetchTrace where
  result : Option Record
  report : Option (String × String)
  attemptsMade : Nat
  sleeps : List Nat
deriving DecidableEq, Repr

/-- The `for attempt in range(retries)` loop of `fetch_article_data`, from
iteration `attempt` on, with `fuel` iterations remaining
(`fuel = retries - attempt` at every reachable call). -/
def fetchGo (pmid : String) (att : Nat → Except String Record) (retries : Nat) :
    Nat → Nat → FetchTrace
  | _, 0 => ⟨none, none, 0, []⟩
  | attempt, fuel + 1 =>
    match att attempt with
    | .ok rec => ⟨some rec, none, 1, []⟩
    | .error e =>
      if attempt < retries - 1 then
        let t := fetchGo pmid att retries (attempt + 1) fuel
        ⟨t.result, t.report, t.attemptsMade + 1, 3 ^ attempt :: t.sleeps⟩
      else
        ⟨none, some (pmid, e), 1, []⟩

/-- `fetch_article_data(pmid, retries)` with attempt oracle `att`. -/
def fetch_article_data (pmid : String) (att : Nat → Except String Record)
    (retries : Nat) : FetchTrace :=
  fetchGo pmid att retries 0 retries

/-- The truthiness filter applied by `process_batch` before storing:
`article_data["abstract"] and article_data["doi"]` (the dict itself is a
non-empty dict, hence always truthy when not `None`). -/
def usable (d : Record) : Bool :=
  d.abstract != "" && truthyOpt d.doi

/-- The `results` list built by `process_batch` over a batch of PMIDs
(per-PMID attempt oracle `att`). -/
def process_batch_results (att : String → Nat → Except String Record) :
    List String → List Record
  | [] => []
  | pmid :: rest =>
    match (fetch_article_data pmid (att pmid) RETRIES).result with
    | some d =>
      if d.abstract != "" && truthyOpt d.doi then
        d :: process_batch_results att rest
      else
        process_batch_results att rest
    | none => process_batch_results att rest

/-- `process_batch(batch)`: returns `(results, batch)`. -/
def process_batch (att : String → Nat → Except String Record)
    (batch : List String) : List Record × List String :=
  (process_batch_results att batch, batch)

/-- Python `str(x)` applied to an optional-string field (`None` prints as
`"None"`), as in the f-string template of `format_article_markdown`. -/
def pyStr : Option String → String
  | none => "None"
  | some s => s

/-- `format_article_markdown(data)`: the rendered markdown block. -/
def format_article_markdown (data : Record) : String :=
  "#### " ++ data.title ++ "\n" ++
  "- **Article ID**: " ++ data.pub_id ++ "\n" ++
  "- **DOI**: " ++ pyStr data.doi ++ "\n" ++
  "- **Keywords**: " ++ String.intercalate ", " data.keyword ++ "\n" ++
  "- **First Author Affiliation**: " ++ pyStr data.first_author_affiliation ++ "\n" ++
  "- **Corresponding Author Affiliation**: " ++ pyStr data.communicate_author_affiliation ++ "\n" ++
  "- **Journal**: " ++ pyStr data.journal ++ "\n" ++
  "- **Publication Date**: " ++ pyStr data.pub_date ++ "\n" ++
  "**Abstract**: " ++ data.abstract ++ "\n\n"

/-- Python's `needle in hay` on strings, as a scan over character lists. -/
def infixBool (needle : List Char) : List Char → Bool
  | [] => needle == []
  | c :: rest => List.isPrefixOf needle (c :: rest) || infixBool needle rest

/-- `has_github_link(abstract)`: case-sensitive substring test. -/
def has_github_link (abstract : String) : Bool :=
  infixBool "ithub".toList abstract.toList || infixBool "avaliable".toList abstract.toList

/-- The five lists built by the `for article in articles` loop of
`generate_outputs` (each written to its own output file afterwards). -/
structure Outputs where
  pmcids : List String
  no_pmcids : List Record
  all_md : List String
  link_articles : List Record
  no_link_articles : List Record
deriving DecidableEq, Repr

/-- The loop body of `generate_outputs` over the parsed dataset records. -/
def generate_outputs (select_link : Bool) : List Record → Outputs
  | [] => ⟨[], [], [], [], []⟩
  | article :: rest =>
    let t := generate_outputs select_link rest
    { pmcids :=
        match article.pmc_id with
        | some s => if s != "" then s :: t.pmcids else t.pmcids
        | none => t.pmcids
      no_pmcids :=
        if truthyOpt article.pmc_id then t.no_pmcids else article :: t.no_pmcids
      all_md := format_article_markdown article :: t.all_md
      link_articles :=
        if select_link && has_github_link article.abstract then
          article :: t.link_articles
        else t.link_articles
      no_link_articles :=
        if select_link && !has_github_link article.abstract then
          article :: t.no_link_articles
        else t.no_link_articles }

/-- `[pm_ids[i:i+n] for i in range(0, len(pm_ids), n)]`, written with explicit
fuel (for `n ≥ 1` the list's length is enough fuel; `n = 0` raises in Python
and is never used — `BATCH_SIZE = 1`). -/
def chunksAux (n : Nat) : Nat → List String → List (List String)
  | 0, _ => []
  | _, [] => []
  | fuel + 1, l => l.take n :: chunksAux n fuel (l.drop n)

/-- Batch partition of the identifier list. -/
def chunks (n : Nat) (l : List String) : List (List String) :=
  chunksAux n l.length l

/-- Observable effects of one `process_all_ids` run: the records appended to
`id_information.json` during the fetch phase (one JSON line each), the
`failed_ids` accumulator, the printed export error if `generate_outputs`
raised, the export outputs otherwise, and the content of `failed_ids.txt`
when it is written (`"\n".join(failed_ids)`, one identifier per line). -/
structure RunTrace where
  datasetLines : List Record
  failed_ids : List String
  exportError : Option String
  exportOutputs : Option Outputs
  failedFileWritten : Option String
deriving DecidableEq, Repr

/-- The fetch-phase loop of `process_all_ids`: successful (non-empty) batch
results are appended to the dataset, batches with empty results have their
whole id list extended onto `failed_ids`. -/
def fetchPhase (att : String → Nat → Except String Record) :
    List (List String) → List Record × List String → List Record × List String
  | [], acc => acc
  | batch :: rest, (ds, fids) =>
    let r := process_batch att batch
    if r.1.isEmpty then
      fetchPhase att rest (ds, fids ++ r.2)
    else
      fetchPhase att rest (ds ++ r.1, fids)

/-- `process_all_ids(pm_ids)` with per-PMID attempt oracle `att`, batch size
`batch_size`, and `exportFail` injecting the exception `generate_outputs`
may raise (the `except` branch prints the error and returns early, so
`failed_ids.txt` is only reached when export succeeded). -/
def process_all_ids (att : String → Nat → Except String Record)
    (pm_ids : List String) (batch_size : Nat) (select_link : Bool)
    (exportFail : Option String) : RunTrace :=
  let batches := chunks batch_size pm_ids
  let p := fetchPhase att batches ([], [])
  match exportFail with
  | some e => ⟨p.1, p.2, some e, none, none⟩
  | none =>
      ⟨p.1, p.2, none, some (generate_outputs select_link p.1),
        if p.2.isEmpty then none else some (String.intercalate "\n" p.2)⟩

/-! ### Behaviour of the retry loop -/

/-- If attempts `a, …, a+m-1` raise and attempt `a+m` succeeds (within the
budget), the loop from iteration `a` returns the record after `m+1` attempts,
sleeping `3^(a+i)` after each failed attempt `a+i`. -/
theorem fetchGo_ok (pmid : String) (att : Nat → Except String Record)
    (retries : Nat) (err : Nat → String) (rec : Record) :
    ∀ m a, (∀ i, i < m → att (a + i) = .error (err (a + i))) →
      att (a + m) = .ok rec → a + m < retries →
      fetchGo pmid att retries a (retries - a) =
        ⟨some rec, none, m + 1, (List.range m).map (fun i => 3 ^ (a + i))⟩ := by
  intro m
  induction m with
  | zero =>
    intro a _ hok hlt
    have hf : retries - a = (retries - a - 1) + 1 := by omega
    rw [hf]
    simp only [Nat.add_zero] at hok
    simp [fetchGo, hok]
  | succ m ih =>
    intro a hfail hok hlt
    have hf : retries - a = (retries - (a + 1)) + 1 := by omega
    rw [hf]
    have ha : att a = .error (err a) := by
      have := hfail 0 (Nat.succ_pos m)
      simpa using this
    have hcond : a < retries - 1 := by omega
    have hrec := ih (a + 1)
      (fun i hi => by
        have := hfail (i + 1) (by omega)
        simpa [Nat.add_assoc, Nat.add_comm 1 i] using this)
      (by simpa [Nat.add_assoc, Nat.add_comm 1 m] using hok)
      (by omega)
    simp only [fetchGo, ha, hcond, if_true]
    rw [hrec]
    refine congrArg₂ _ rfl ?_
    rw [List.range_succ_eq_map, List.map_cons, List.map_map]
    refine congrArg₂ _ (by simp) ?_
    refine List.map_congr_left (fun i _ => ?_)
    simp [Function.comp]
    omega

/-- If every attempt within the budget raises, the loop from iteration `a`
(with its remaining fuel) returns `None`, prints the PMID with the error of
the last attempt, performs all remaining attempts, and sleeps after every
attempt but the last. -/
theorem fetchGo_all_fail (pmid : String) (att : Nat → Except String Record)
    (retries : Nat) (err : Nat → String) :
    ∀ fuel a, fuel = retries - a → a < retries →
      (∀ i, i < retries → att i = .error (err i)) →
      fetchGo pmid att retries a fuel =
        ⟨none, some (pmid, err (retries - 1)), fuel,
         (List.range (retries - 1 - a)).map (fun i => 3 ^ (a + i))⟩ := by
  intro fuel
  induction fuel with
  | zero => intro a h1 h2 _; omega
  | succ fuel ih =>
    intro a hfe hlt hfail
    have ha : att a = .error (err a) := hfail a hlt
    by_cases hcond : a < retries - 1
    · have hrec := ih (a + 1) (by omega) (by omega) hfail
      simp only [fetchGo, ha, hcond, if_true]
      rw [hrec]
      refine congrArg₂ _ rfl ?_
      have hk : retries - 1 - a = (retries - 1 - (a + 1)) + 1 := by omega
      rw [hk, List.range_succ_eq_map, List.map_cons, List.map_map]
      refine congrArg₂ _ (by simp) ?_
      refine List.map_congr_left (fun i _ => ?_)
      simp [Function.comp]
      omega
    · have haeq : a = retries - 1 := by omega
      have hfuel : fuel = 0 := by omega
      simp only [fetchGo, ha, hcond, if_false]
      subst hfuel
      have : retries - 1 - a = 0 := by omega
      simp [haeq, this]

/-- `fetch_article_data` when attempts `0, …, m-1` fail and attempt `m`
succeeds within the budget. -/
theorem fetch_ok_after (pmid : String) (att : Nat → Except String Record)
    (retries : Nat) (err : Nat → String) (rec : Record) (m : Nat)
    (hfail : ∀ i, i < m → att i = .error (err i))
    (hok : att m = .ok rec) (hm : m < retries) :
    fetch_article_data pmid att retries =
      ⟨some rec, none, m + 1, (List.range m).map (fun i => 3 ^ i)⟩ := by
  have h := fetchGo_ok pmid att retries err rec m 0
    (fun i hi => by simpa using hfail i hi) (by simpa using hok) (by omega)
  simpa [fetch_article_data] using h

/-- `fetch_article_data` when every attempt within the budget fails. -/
theorem fetch_all_fail (pmid : String) (att : Nat → Except String Record)
    (retries : Nat) (err : Nat → String) (h1 : 1 ≤ retries)
    (hfail : ∀ i, i < retries → att i = .error (err i)) :
    fetch_article_data pmid att retries =
      ⟨none, some (pmid, err (retries - 1)), retries,
       (List.range (retries - 1)).map (fun i => 3 ^ i)⟩ := by
  have h := fetchGo_all_fail pmid att retries err retries 0 (by omega) (by omega) hfail
  simpa [fetch_article_data] using h

/-- C3: with retry budget R=3, failing attempts 0 and 1 and succeeding on
attempt 2 yields Success after exactly 3 attempts; an always-failing stub
makes exactly R attempts and yields Failure (`None`). -/
theorem retry_attempt_counts :
    (∀ (pmid : String) (att : Nat → Except String Record) (rec : Record)
        (e0 e1 : String),
        att 0 = Except.error e0 → att 1 = Except.error e1 → att 2 = Except.ok rec →
        (fetch_article_data pmid att RETRIES).result = some rec ∧
        (fetch_article_data pmid att RETRIES).attemptsMade = 3)
  ∧ (∀ (pmid : String) (att : Nat → Except String Record) (err : Nat → String)
        (R : Nat), 1 ≤ R → (∀ i, i < R → att i = Except.error (err i)) →
        (fetch_article_data pmid att R).result = none ∧
        (fetch_article_data pmid att R).attemptsMade = R) := by
  constructor
  · intro pmid att rec e0 e1 h0 h1 h2
    have h := fetch_ok_after pmid att RETRIES
      (fun i => if i = 0 then e0 else e1) rec 2
      (fun i hi => by
        interval_cases i
        · simpa using h0
        · simpa using h1)
      h2 (by decide)
    rw [h]
    exact ⟨rfl, rfl⟩
  · intro pmid att err R hR hfail
    have h := fetch_all_fail pmid att R err hR hfail
    rw [h]
    exact ⟨rfl, rfl⟩

/-- Stub: fails attempts 0 and 1, succeeds on attempt 2. -/
def recW : Record := ⟨"W", some "10.1/w", none, "abs", "t", [], none, none, none, none⟩

/-- Attempt oracle failing twice then succeeding. -/
def attW : Nat → Except String Record :=
  fun i => if i < 2 then .error "boom" else .ok recW

/-- Attempt oracle that always fails. -/
def attF : Nat → Except String Record := fun _ => .error "down"

/-- Witness for C3 at the concrete stubs. -/
theorem retry_attempt_counts_witness :
    ((fetch_article_data "W" attW RETRIES).result = some recW ∧
     (fetch_article_data "W" attW RETRIES).attemptsMade = 3) ∧
    ((fetch_article_data "F" attF RETRIES).result = none ∧
     (fetch_article_data "F" attF RETRIES).attemptsMade = RETRIES) :=
  ⟨retry_attempt_counts.1 "W" attW recW "boom" "boom" rfl rfl rfl,
   retry_attempt_counts.2 "F" attF (fun _ => "down") RETRIES (by decide)
     (fun _ _ => rfl)⟩

/-- C4: when every attempt errors, `fetch_article_data` returns the failure
outcome (`None` together with the printed report naming the identifier and
the last observed error); no exception escapes — the embedding is a total
function into `FetchTrace`. -/
theorem fetch_failure_outcome :
    ∀ (pmid : String) (att : Nat → Except String Record) (err : Nat → String)
      (R : Nat), 1 ≤ R → (∀ i, i < R → att i = Except.error (err i)) →
      (fetch_article_data pmid att R).result = none ∧
      (fetch_article_data pmid att R).report = some (pmid, err (R - 1)) := by
  intro pmid att err R hR hfail
  have h := fetch_all_fail pmid att R err hR hfail
  rw [h]
  exact ⟨rfl, rfl⟩

/-- Witness for C4 at the always-failing stub. -/
theorem fetch_failure_outcome_witness :
    (fetch_article_data "F" attF RETRIES).result = none ∧
    (fetch_article_data "F" attF RETRIES).report = some ("F", "down") :=
  fetch_failure_outcome "F" attF (fun _ => "down") RETRIES (by decide)
    (fun _ _ => rfl)

/-- C5: every failed attempt `i` with attempts remaining sleeps `3^i` before
the next attempt, and no sleep follows the final attempt: on success at
attempt `m` the sleeps are exactly `3^0, …, 3^(m-1)`, and when all `R`
attempts fail they are exactly `3^0, …, 3^(R-2)`. -/
theorem backoff_sleep_schedule :
    (∀ (pmid : String) (att : Nat → Except String Record) (err : Nat → String)
        (rec : Record) (m R : Nat), (∀ i, i < m → att i = Except.error (err i)) →
        att m = Except.ok rec → m < R →
        (fetch_article_data pmid att R).sleeps = (List.range m).map (fun i => 3 ^ i))
  ∧ (∀ (pmid : String) (att : Nat → Except String Record) (err : Nat → String)
        (R : Nat), 1 ≤ R → (∀ i, i < R → att i = Except.error (err i)) →
        (fetch_article_data pmid att R).sleeps =
          (List.range (R - 1)).map (fun i => 3 ^ i)) := by
  constructor
  · intro pmid att err rec m R hfail hok hm
    rw [fetch_ok_after pmid att R err rec m hfail hok hm]
  · intro pmid att err R hR hfail
    rw [fetch_all_fail pmid att R err hR hfail]

/-- Witness for C5: with R=3 the delays before the second and third attempts
are 1 and 3 units, both for the fail-fail-succeed stub and for the
always-failing stub. -/
theorem backoff_sleep_schedule_witness :
    (fetch_article_data "W" attW RETRIES).sleeps = [1, 3] ∧
    (fetch_article_data "F" attF RETRIES).sleeps = [1, 3] := by
  constructor
  · have h := backoff_sleep_schedule.1 "W" attW (fun _ => "boom") recW 2 RETRIES
      (fun i hi => by
        have : i < 2 := hi
        simp [attW, this])
      (by simp [attW]) (by decide)
    simpa using h
  · have h := backoff_sleep_schedule.2 "F" attF (fun _ => "down") RETRIES
      (by decide) (fun _ _ => rfl)
    simpa using h

/-! ### Batch processing and the usability filter -/

/-- What `process_batch` stores for a single PMID: the fetched record when
fetching succeeded and the record passes the truthiness filter. -/
def storedOf (att : String → Nat → Except String Record) (pmid : String) :
    Option Record :=
  match (fetch_article_data pmid (att pmid) RETRIES).result with
  | some d => if d.abstract != "" && truthyOpt d.doi then some d else none
  | none => none

/-- `process_batch_results` keeps exactly the stored record of each PMID. -/
theorem process_batch_results_eq_filterMap
    (att : String → Nat → Except String Record) (batch : List String) :
    process_batch_results att batch = batch.filterMap (storedOf att) := by
  induction batch with
  | nil => simp [process_batch_results]
  | cons pmid rest ih =>
    simp only [process_batch_results, List.filterMap_cons, storedOf]
    cases hres : (fetch_article_data pmid (att pmid) RETRIES).result with
    | none => simpa using ih
    | some d =>
      by_cases hu : (d.abstract != "" && truthyOpt d.doi) = true
      · simpa [hu] using ih
      · simp only [Bool.not_eq_true] at hu
        simpa [hu] using ih

/-- `storedOf` yields `r` exactly when the fetch returned `r` and `r` passes
the usability filter. -/
theorem storedOf_eq_some (att : String → Nat → Except String Record)
    (pmid : String) (r : Record) :
    storedOf att pmid = some r ↔
      (fetch_article_data pmid (att pmid) RETRIES).result = some r ∧
        usable r = true := by
  unfold storedOf
  cases hres : (fetch_article_data pmid (att pmid) RETRIES).result with
  | none => simp
  | some d =>
    by_cases hu : (d.abstract != "" && truthyOpt d.doi) = true
    · simp only [hu, if_true, Option.some_inj]
      constructor
      · rintro rfl
        exact ⟨rfl, by simpa [usable] using hu⟩
      · rintro ⟨hd, _⟩
        exact hd
    · simp only [Bool.not_eq_true] at hu
      simp only [hu, Bool.false_eq_true, if_false]
      constructor
      · intro h; exact absurd h (by simp)
      · rintro ⟨hd, hur⟩
        have hdr : d = r := by simpa using hd
        subst hdr
        exact absurd hur (by simp [usable, hu])

/-- C2: a record is in the stored results of a batch iff some PMID of the
batch fetched it successfully and it passed the usability filter (non-empty
abstract and truthy DOI); the filter lives in `process_batch`, not in the
fetcher: a successful first attempt is returned untouched, usable or not. -/
theorem dataset_membership_iff :
    (∀ (att : String → Nat → Except String Record) (batch : List String)
        (r : Record),
        r ∈ (process_batch att batch).1 ↔
          ∃ pmid, pmid ∈ batch ∧
            (fetch_article_data pmid (att pmid) RETRIES).result = some r ∧
            usable r = true)
  ∧ (∀ (pmid : String) (att : Nat → Except String Record) (r : Record),
        att 0 = Except.ok r →
        (fetch_article_data pmid att RETRIES).result = some r) := by
  constructor
  · intro att batch r
    rw [process_batch, process_batch_results_eq_filterMap, List.mem_filterMap]
    constructor
    · rintro ⟨pmid, hmem, hst⟩
      exact ⟨pmid, hmem, (storedOf_eq_some att pmid r).mp hst⟩
    · rintro ⟨pmid, hmem, hst⟩
      exact ⟨pmid, hmem, (storedOf_eq_some att pmid r).mpr hst⟩
  · intro pmid att r h0
    have h := fetch_ok_after pmid att RETRIES (fun _ => "") r 0
      (fun i hi => absurd hi (Nat.not_lt_zero i)) h0 (by decide)
    rw [h]

/-- Fetched successfully but unusable (no DOI): filtered before storage. -/
def recU : Record := ⟨"U", none, none, "some abstract", "t", [], none, none, none, none⟩

/-- Per-PMID oracle: "W" usable success, "U" unusable success, others fail. -/
def attBatch : String → Nat → Except String Record :=
  fun pmid _ =>
    if pmid = "W" then .ok recW else if pmid = "U" then .ok recU else .error "down"

/-- Witness for C2: the usable record is stored, and the fetcher returns the
unusable record unfiltered. -/
theorem dataset_membership_iff_witness :
    recW ∈ (process_batch attBatch ["W", "U", "F"]).1 ∧
    (fetch_article_data "U" (attBatch "U") RETRIES).result = some recU :=
  ⟨(dataset_membership_iff.1 attBatch ["W", "U", "F"] recW).mpr
      ⟨"W", by decide, by decide, by decide⟩,
   dataset_membership_iff.2 "U" (attBatch "U") recU rfl⟩

/-! ### Classification and export -/

/-- Closed form of the secondary-id routing of `generate_outputs`. -/
theorem generate_outputs_pmc_eq (sl : Bool) (articles : List Record) :
    (generate_outputs sl articles).pmcids =
      articles.filterMap (fun a => if truthyOpt a.pmc_id then a.pmc_id else none) ∧
    (generate_outputs sl articles).no_pmcids =
      articles.filter (fun a => !truthyOpt a.pmc_id) := by
  induction articles with
  | nil => simp [generate_outputs]
  | cons a rest ih =>
    cases hp : a.pmc_id with
    | none =>
      simp [generate_outputs, hp, truthyOpt, ih.1, ih.2, List.filter_cons,
        List.filterMap_cons]
    | some s =>
      by_cases hs : (s != "") = true
      · simp [generate_outputs, hp, truthyOpt, hs, ih.1, ih.2, List.filter_cons,
          List.filterMap_cons]
      · simp only [Bool.not_eq_true] at hs
        simp [generate_outputs, hp, truthyOpt, hs, ih.1, ih.2, List.filter_cons,
          List.filterMap_cons]

/-- Closed form of the link classification of `generate_outputs` when
`select_link` is on. -/
theorem generate_outputs_link_eq (articles : List Record) :
    (generate_outputs true articles).link_articles =
      articles.filter (fun a => has_github_link a.abstract) ∧
    (generate_outputs true articles).no_link_articles =
      articles.filter (fun a => !has_github_link a.abstract) := by
  induction articles with
  | nil => simp [generate_outputs]
  | cons a rest ih =>
    by_cases h : has_github_link a.abstract = true
    · simp [generate_outputs, h, ih.1, ih.2, List.filter_cons]
    · simp only [Bool.not_eq_true] at h
      simp [generate_outputs, h, ih.1, ih.2, List.filter_cons]

/-- Every article contributes to exactly one of `pmcids` / `no_pmcids`. -/
theorem generate_outputs_pmc_length (sl : Bool) (articles : List Record) :
    (generate_outputs sl articles).pmcids.length +
      (generate_outputs sl articles).no_pmcids.length = articles.length := by
  induction articles with
  | nil => simp [generate_outputs]
  | cons a rest ih =>
    cases hp : a.pmc_id with
    | none =>
      simp only [generate_outputs, hp, truthyOpt, Bool.false_eq_true, if_false,
        List.length_cons]
      omega
    | some s =>
      by_cases hs : (s != "") = true
      · simp only [generate_outputs, hp, truthyOpt, hs, if_true, List.length_cons]
        omega
      · simp only [Bool.not_eq_true] at hs
        simp only [generate_outputs, hp, truthyOpt, hs, Bool.false_eq_true,
          if_false, List.length_cons]
        omega

/-- C8: export partitions the dataset — the secondary-id routing touches each
record exactly once (counts add up, and membership in `no_pmcids` is exactly
falsy `pmc_id`), and the link classification splits the dataset into two
disjoint subsets whose concatenation is a permutation of the dataset. -/
theorem export_partitions (articles : List Record) :
    ((generate_outputs true articles).pmcids.length +
      (generate_outputs true articles).no_pmcids.length = articles.length) ∧
    (∀ r, r ∈ (generate_outputs true articles).no_pmcids ↔
        r ∈ articles ∧ truthyOpt r.pmc_id = false) ∧
    (∀ r, r ∈ (generate_outputs true articles).link_articles ↔
        r ∈ articles ∧ has_github_link r.abstract = true) ∧
    (∀ r, r ∈ (generate_outputs true articles).no_link_articles ↔
        r ∈ articles ∧ has_github_link r.abstract = false) ∧
    ((generate_outputs true articles).link_articles ++
      (generate_outputs true articles).no_link_articles).Perm articles ∧
    ((generate_outputs true articles).link_articles).Disjoint
      ((generate_outputs true articles).no_link_articles) := by
  refine ⟨generate_outputs_pmc_length true articles, ?_, ?_, ?_, ?_, ?_⟩
  · intro r
    rw [(generate_outputs_pmc_eq true articles).2, List.mem_filter]
    simp
  · intro r
    rw [(generate_outputs_link_eq articles).1, List.mem_filter]
  · intro r
    rw [(generate_outputs_link_eq articles).2, List.mem_filter]
    simp
  · rw [(generate_outputs_link_eq articles).1, (generate_outputs_link_eq articles).2]
    exact List.filter_append_perm _ articles
  · intro r h1 h2
    rw [(generate_outputs_link_eq articles).1, List.mem_filter] at h1
    rw [(generate_outputs_link_eq articles).2, List.mem_filter] at h2
    simp [h1.2] at h2

/-- Witness for C8 on a concrete two-record dataset: the matched record lands
in `link_articles`, the unmatched one in `no_link_articles`. -/
theorem export_partitions_witness :
    recW ∈ (generate_outputs true [recW, recU]).no_link_articles ∧
    (generate_outputs true [recW, recU]).pmcids.length +
      (generate_outputs true [recW, recU]).no_pmcids.length = 2 :=
  ⟨((export_partitions [recW, recU]).2.2.2.1 recW).mpr ⟨by decide, by decide⟩,
   (export_partitions [recW, recU]).1⟩

/-- C10: a record is routed to `no_pmcids` exactly when its `pmc_id` is falsy
(`None` or the empty string); for truthy `pmc_id` only the id string is
appended to `pmcids`. -/
theorem pmc_routing (sl : Bool) (articles : List Record) :
    ((generate_outputs sl articles).pmcids =
      articles.filterMap (fun a => if truthyOpt a.pmc_id then a.pmc_id else none)) ∧
    ((generate_outputs sl articles).no_pmcids =
      articles.filter (fun a => !truthyOpt a.pmc_id)) ∧
    (∀ a : Record, truthyOpt a.pmc_id = false ↔
        (a.pmc_id = none ∨ a.pmc_id = some "")) := by
  refine ⟨(generate_outputs_pmc_eq sl articles).1,
    (generate_outputs_pmc_eq sl articles).2, ?_⟩
  intro a
  cases hp : a.pmc_id with
  | none => simp [truthyOpt]
  | some s => simp [truthyOpt]

/-! ### Whole-run properties -/

/-- With batch size 1 (and enough fuel) chunking is one singleton per id. -/
theorem chunksAux_one (l : List String) :
    ∀ f, l.length ≤ f → chunksAux 1 f l = l.map (fun x => [x]) := by
  induction l with
  | nil => intro f _; cases f <;> simp [chunksAux]
  | cons x xs ih =>
    intro f hf
    cases f with
    | zero => simp at hf
    | succ f =>
      simp only [chunksAux, List.take, List.drop, List.map_cons]
      exact congrArg _ (ih f (by simpa using hf))

/-- `chunks 1` splits the id list into singletons. -/
theorem chunks_one (l : List String) : chunks 1 l = l.map (fun x => [x]) :=
  chunksAux_one l l.length (Nat.le_refl _)

/-- Over singleton batches, every id grows the dataset or the failed list. -/
theorem fetchPhase_count (att : String → Nat → Except String Record) :
    ∀ (ids : List String) (ds : List Record) (fids : List String),
      ds.length + fids.length + ids.length ≤
        (fetchPhase att (ids.map (fun x => [x])) (ds, fids)).1.length +
        (fetchPhase att (ids.map (fun x => [x])) (ds, fids)).2.length := by
  intro ids
  induction ids with
  | nil => intro ds fids; simp [fetchPhase]
  | cons x xs ih =>
    intro ds fids
    simp only [List.map_cons, fetchPhase]
    by_cases he : (process_batch att [x]).1.isEmpty
    · simp only [he, if_true]
      have h := ih ds (fids ++ (process_batch att [x]).2)
      simp only [List.length_append, process_batch, List.length_cons,
        List.length_nil] at h ⊢
      omega
    · simp only [he, Bool.false_eq_true, if_false]
      have hlen : 1 ≤ (process_batch att [x]).1.length := by
        cases hl : (process_batch att [x]).1 with
        | nil => simp [hl] at he
        | cons a t => simp
      have h := ih (ds ++ (process_batch att [x]).1) fids
      simp only [List.length_append, List.length_cons] at h ⊢
      omega

/-- C9: with unit size 1, `|Dataset| + |FailedSet entries|` is at least the
number of input identifiers — every identifier either yields a stored (or a
filtered, then failed-marked) outcome; none vanishes unattempted. -/
theorem no_identifier_vanishes (att : String → Nat → Except String Record)
    (pm_ids : List String) (sl : Bool) (exportFail : Option String)
    (hne : pm_ids ≠ []) :
    pm_ids.length ≤
      (process_all_ids att pm_ids BATCH_SIZE sl exportFail).datasetLines.length +
      (process_all_ids att pm_ids BATCH_SIZE sl exportFail).failed_ids.length := by
  have hc : chunks BATCH_SIZE pm_ids = pm_ids.map (fun x => [x]) := chunks_one pm_ids
  have h := fetchPhase_count att pm_ids [] []
  cases exportFail with
  | none =>
    simp only [process_all_ids, hc]
    simpa using h
  | some e =>
    simp only [process_all_ids, hc]
    simpa using h

/-- Witness for C9 on a two-id run (one usable success, one failure). -/
theorem no_identifier_vanishes_witness :
    (["W", "F"] : List String).length ≤
      (process_all_ids attBatch ["W", "F"] BATCH_SIZE true none).datasetLines.length +
      (process_all_ids attBatch ["W", "F"] BATCH_SIZE true none).failed_ids.length :=
  no_identifier_vanishes attBatch ["W", "F"] true none (by decide)

/-- C6: injected export failure is reported and leaves the fetch-phase
artifacts (dataset lines and failed-id accumulator) exactly as in the
successful run — nothing is rolled back or modified. -/
theorem export_failure_preserves_fetch_results
    (att : String → Nat → Except String Record) (pm_ids : List String)
    (bs : Nat) (sl : Bool) (e : String) :
    (process_all_ids att pm_ids bs sl (some e)).exportError = some e ∧
    (process_all_ids att pm_ids bs sl (some e)).datasetLines =
      (process_all_ids att pm_ids bs sl none).datasetLines ∧
    (process_all_ids att pm_ids bs sl (some e)).failed_ids =
      (process_all_ids att pm_ids bs sl none).failed_ids := by
  exact ⟨rfl, rfl, rfl⟩

/-- C7 counterexample: a run whose failed set is non-empty but whose export
stage raises never writes `failed_ids.txt` (the `except` branch returns
before the write), refuting "written exactly once at run end" for all runs. -/
theorem failedset_skipped_on_export_error :
    (process_all_ids attBatch ["A3"] BATCH_SIZE true (some "disk full")).failed_ids
      = ["A3"] ∧
    (process_all_ids attBatch ["A3"] BATCH_SIZE true
      (some "disk full")).failedFileWritten = none := by
  decide

/-- C7 amended: when the export stage succeeds, `failed_ids.txt` is written
exactly once at run end, newline-joined (one identifier per line), iff the
failed set is non-empty; when the export stage raises, it is not written at
all. -/
theorem failedset_write_policy (att : String → Nat → Except String Record)
    (pm_ids : List String) (bs : Nat) (sl : Bool) :
    ((process_all_ids att pm_ids bs sl none).failedFileWritten =
      (if (process_all_ids att pm_ids bs sl none).failed_ids.isEmpty then none
       else some (String.intercalate "\n"
         (process_all_ids att pm_ids bs sl none).failed_ids))) ∧
    (∀ e, (process_all_ids att pm_ids bs sl (some e)).failedFileWritten = none) :=
  ⟨rfl, fun _ => rfl⟩

/-- End-to-end stub record for "A1": usable (non-empty abstract and DOI). -/
def recA1 : Record :=
  ⟨"A1", some "10.1/a1", some "PMC1", "code avaliable", "T1", [], none, none,
    none, none⟩

/-- End-to-end stub record for "A2": fetch succeeds but abstract is empty. -/
def recA2 : Record :=
  ⟨"A2", some "10.1/a2", some "PMC2", "", "T2", [], none, none, none, none⟩

/-- End-to-end oracle: usable success for A1, unusable success for A2,
every attempt fails for A3. -/
def attE2E : String → Nat → Except String Record :=
  fun pmid _ =>
    if pmid = "A1" then .ok recA1
    else if pmid = "A2" then .ok recA2
    else .error "network down"

/-- C1 counterexample: in the three-id scenario the unusable success "A2" is
also recorded among the failed ids (its unit produced zero stored results),
so the failed set is not `{A3}`. -/
theorem e2e_failedset_counterexample :
    "A2" ∈ (process_all_ids attE2E ["A1", "A2", "A3"] BATCH_SIZE true
      none).failed_ids ∧
    (process_all_ids attE2E ["A1", "A2", "A3"] BATCH_SIZE true none).failed_ids
      ≠ ["A3"] := by
  decide

/-- C1 amended: the dataset holds exactly A1's record, and the failed set
holds both A2 (usability rejection, conflated with failure because its unit
stored nothing) and A3 (exhausted retries). -/
theorem e2e_dataset_and_failedset :
    (process_all_ids attE2E ["A1", "A2", "A3"] BATCH_SIZE true
      none).datasetLines = [recA1] ∧
    (process_all_ids attE2E ["A1", "A2", "A3"] BATCH_SIZE true none).failed_ids
      = ["A2", "A3"] := by
  decide

end BGI
